import Mathlib

/-!
Verification of the pyRevit extraction/validation scripts
(`VerificadorInteligente.tab`).  The scripts are IronPython 2 procedures
that read a Revit document, classify sheets by keyword, validate counters
against thresholds and dump CSV/JSON files.  This file gives a shallow
embedding of the pure computations those scripts perform: Python strings
become Lean `String`s (sequences of Unicode scalars), the per-record
`try/except` blocks become `Except Unit` inputs, and the files written
become explicit row lists / byte lists.
-/

/-- `beginsWith pre l` is `true` iff `pre` is an initial segment of `l`
(used both for byte-level file prefixes and for substring search). -/
def beginsWith [BEq α] : List α → List α → Bool
  | [], _ => true
  | _ :: _, [] => false
  | a :: as, b :: bs => a == b && beginsWith as bs

/-- `hasSub needle hay` embeds Python's `needle in hay` substring test on
strings (viewed as lists of characters): `true` iff `needle` occurs
contiguously in `hay`; the empty needle occurs in every string. -/
def hasSub [BEq α] (needle : List α) : List α → Bool
  | [] => needle.isEmpty
  | h :: t => beginsWith needle (h :: t) || hasSub needle t

/-- Python `len(s)` on a text string: the number of characters. -/
def pyLen (s : String) : Nat := s.data.length

/-- Python `s[:n]`: the first `n` characters of `s`. -/
def pySlice (s : String) (n : Nat) : String := String.mk (s.data.take n)

/-- Embeds `norm_upper` from `ValidarLayout` / `ResumoModelo`: the input
is normalised to upper case (`s.upper()`).  `Char.toUpper` upper-cases the
ASCII range; the configured keyword tables only carry non-ASCII characters
that are already upper case (`ELÉTR`, `CÂMERA`). -/
def norm_upper (s : String) : String := String.mk (s.data.map Char.toUpper)

/-- Embeds the truncation step of `collect_params` / `write_top_params`:
`if len(val) > max_len: val = val[:max_len]`. -/
def truncateVal (maxLen : Nat) (val : String) : String :=
  if pyLen val > maxLen then pySlice val maxLen else val

/-- UTF-8 encoding of one character (the standard 1-4 byte scheme). -/
def utf8EncodeChar (c : Char) : List Nat :=
  let n := c.toNat
  if n < 0x80 then [n]
  else if n < 0x800 then
    [0xC0 ||| (n >>> 6), 0x80 ||| (n &&& 0x3F)]
  else if n < 0x10000 then
    [0xE0 ||| (n >>> 12), 0x80 ||| ((n >>> 6) &&& 0x3F), 0x80 ||| (n &&& 0x3F)]
  else
    [0xF0 ||| (n >>> 18), 0x80 ||| ((n >>> 12) &&& 0x3F),
     0x80 ||| ((n >>> 6) &&& 0x3F), 0x80 ||| (n &&& 0x3F)]

/-- UTF-8 encoding of a string, as a list of byte values. -/
def utf8Encode (s : String) : List Nat := s.data.flatMap utf8EncodeChar

/-- The UTF-8 byte-order mark: what `u"﻿".encode("utf-8")` yields. -/
def bomBytes : List Nat := [0xEF, 0xBB, 0xBF]

/-- The sheet keyword table.  `SHEET_RULES` in `ValidarLayout` and
`SHEET_KEYWORDS` in `ResumoModelo` are this same table. -/
def SHEET_RULES : List (String × List String) :=
  [("ELETRICA", ["EL", "ELE", "ELÉTR", "E-"]),
   ("INFRA",    ["INF", "TI", "DADOS", "REDE", "RACK", "CABEAMENTO"]),
   ("SEGURANCA", ["SEG", "CFTV", "ALARME", "ACESSO", "CAMERA", "CÂMERA"])]

/-- The inner keyword loop of `classify_sheet`: `true` iff some keyword
of `keys` occurs in the (already normalised) text — the `break` after
the first matching keyword makes the loop an existence test. -/
def anyKeyHits (keys : List String) (text : String) : Bool :=
  keys.any fun k => hasSub k.data text.data

/-- The hit-collection loop of `classify_sheet`: for each `(label, keys)`
pair in order, the label is recorded once if some keyword of `keys`
occurs in the (already normalised) text. -/
def hitsOf : List (String × List String) → String → List String
  | [], _ => []
  | lk :: rest, text =>
    if anyKeyHits lk.2 text then lk.1 :: hitsOf rest text else hitsOf rest text

/-- Lexicographic comparison of character lists by code point — the
order Python uses to compare and sort strings. -/
def charListLt : List Char → List Char → Bool
  | [], [] => false
  | [], _ :: _ => true
  | _ :: _, [] => false
  | a :: as, b :: bs =>
    if a.toNat < b.toNat then true
    else if b.toNat < a.toNat then false
    else charListLt as bs

/-- Python's `a < b` on strings: code-point lexicographic order. -/
def strLtB (a b : String) : Bool := charListLt a.data b.data

/-- Insertion into a sorted duplicate-free list of strings; folding it
over a list embeds Python's `sorted(list(set(hits)))` (the distinct
elements in increasing lexicographic order). -/
def insertSD (x : String) : List String → List String
  | [] => [x]
  | y :: ys =>
    if x = y then y :: ys
    else if strLtB x y then x :: y :: ys
    else y :: insertSD x ys

/-- Python's `sorted(list(set(l)))` for strings. -/
def pySortedSet (l : List String) : List String :=
  l.foldl (fun acc x => insertSD x acc) []

/-- Python's `"+".join(l)`. -/
def joinPlus : List String → String
  | [] => ""
  | [x] => x
  | x :: y :: rest => x ++ "+" ++ joinPlus (y :: rest)

/-- Embeds `classify_sheet` (identical in `ValidarLayout` and
`ResumoModelo`): upper-case the concatenated `SheetNumber + " " + Name`
text, collect the matching labels, return `"OUTROS"` when none match and
otherwise the sorted, de-duplicated, `"+"`-joined labels. -/
def classify_sheet (rules : List (String × List String)) (raw : String) : String :=
  let text := norm_upper raw
  let hits := hitsOf rules text
  if hits.isEmpty then "OUTROS" else joinPlus (pySortedSet hits)

/-- Modelled from the spec: the labels having at least one keyword that
occurs in the upper-cased text (the classifier's output label set, for
comparison with the code's `hitsOf`). -/
def matchedLabels (rules : List (String × List String)) (raw : String) : List String :=
  (rules.filter fun lk => anyKeyHits lk.2 (norm_upper raw)).map Prod.fst

/-- Modelled from the spec: no keyword of any rule occurs in the
normalised (upper-cased) text. -/
def noKeywordMatches (rules : List (String × List String)) (raw : String) : Bool :=
  rules.all fun lk => lk.2.all fun k => !(hasSub k.data (norm_upper raw).data)

/-- Modelled from the spec: `k` is a case-insensitive substring of `t`
(both sides case-folded). -/
def specCiSub (k t : String) : Bool :=
  hasSub (norm_upper k).data (norm_upper t).data

/-! ## ValidarLayout: thresholds and approval -/

/-- `MIN_SHEETS_ELETRICA` in `ValidarLayout`. -/
def MIN_SHEETS_ELETRICA : Nat := 1
/-- `MIN_SHEETS_INFRA` in `ValidarLayout`. -/
def MIN_SHEETS_INFRA : Nat := 1
/-- `MIN_SHEETS_SEG` in `ValidarLayout` (0 = not validated). -/
def MIN_SHEETS_SEG : Nat := 0
/-- `MIN_ELETRICA_ELEMS` in `ValidarLayout`. -/
def MIN_ELETRICA_ELEMS : Nat := 50
/-- `MIN_INFRA_ELEMS` in `ValidarLayout`. -/
def MIN_INFRA_ELEMS : Nat := 50
/-- `MIN_SEG_ELEMS` in `ValidarLayout`. -/
def MIN_SEG_ELEMS : Nat := 1

/-- The six conditional `issues.append(...)` statements of
`ValidarLayout` (section 3), parameterised over the counters and the
configured minimums.  Only the security-elements rule carries the
`MIN_SEG_ELEMS > 0 and ...` guard, exactly as in the source. -/
def mkIssues (sEle sInf sSeg cEle cInf cSeg mSE mSI mSS mEE mEI mES : Nat) : List String :=
  (if sEle < mSE then
    ["Folhas Elétrica abaixo do mínimo (" ++ toString sEle ++ " < " ++ toString mSE ++ ")."]
   else []) ++
  (if sInf < mSI then
    ["Folhas Infra abaixo do mínimo (" ++ toString sInf ++ " < " ++ toString mSI ++ ")."]
   else []) ++
  (if sSeg < mSS then
    ["Folhas Segurança abaixo do mínimo (" ++ toString sSeg ++ " < " ++ toString mSS ++ ")."]
   else []) ++
  (if cEle < mEE then
    ["Elementos Elétrica abaixo do mínimo (" ++ toString cEle ++ " < " ++ toString mEE ++ ")."]
   else []) ++
  (if cInf < mEI then
    ["Elementos Infra abaixo do mínimo (" ++ toString cInf ++ " < " ++ toString mEI ++ ")."]
   else []) ++
  (if 0 < mES ∧ cSeg < mES then
    ["Elementos de Segurança abaixo do mínimo (" ++ toString cSeg ++ " < " ++ toString mES ++ ")."]
   else [])

/-- The two consistency warnings of `ValidarLayout` ("sheets exist but
almost no elements"): appended to `warns`, never to `issues`. -/
def mkWarns (sEle sInf cEle cInf : Nat) : List String :=
  (if 1 ≤ sEle ∧ cEle < 10 then
    ["Há folhas Elétrica, mas quase nenhum elemento elétrico (possível modelagem incompleta)."]
   else []) ++
  (if 1 ≤ sInf ∧ cInf < 10 then
    ["Há folhas Infra, mas quase nenhum elemento de infra (possível modelagem incompleta)."]
   else [])

/-- `approved = (len(issues) == 0)` in `ValidarLayout`. -/
def approvedFor (sEle sInf sSeg cEle cInf cSeg mSE mSI mSS mEE mEI mES : Nat) : Bool :=
  (mkIssues sEle sInf sSeg cEle cInf cSeg mSE mSI mSS mEE mEI mES).length == 0

/-- Embeds `write_validation_csv(path)` of `ValidarLayout`: the pair of
the path written to and the full row sequence (header, six rule rows,
one row per consistency warning).  The thresholds are the script's
global constants, as in the source. -/
def write_validation_csv (path modelName runStamp : String)
    (sEle sInf sSeg cEle cInf cSeg : Nat) (warns : List String) :
    String × List (List String) :=
  (path,
   [["model", "run_stamp", "tipo", "disciplina", "valor", "minimo", "status", "mensagem"],
    [modelName, runStamp, "sheets", "ELETRICA", toString sEle, toString MIN_SHEETS_ELETRICA,
     if MIN_SHEETS_ELETRICA ≤ sEle then "PASS" else "FAIL",
     if MIN_SHEETS_ELETRICA ≤ sEle then "" else "Folhas Elétrica abaixo do mínimo."],
    [modelName, runStamp, "sheets", "INFRA", toString sInf, toString MIN_SHEETS_INFRA,
     if MIN_SHEETS_INFRA ≤ sInf then "PASS" else "FAIL",
     if MIN_SHEETS_INFRA ≤ sInf then "" else "Folhas Infra abaixo do mínimo."],
    [modelName, runStamp, "sheets", "SEGURANCA", toString sSeg, toString MIN_SHEETS_SEG,
     if MIN_SHEETS_SEG ≤ sSeg then "PASS" else "FAIL",
     if MIN_SHEETS_SEG ≤ sSeg then "" else "Folhas Segurança abaixo do mínimo."],
    [modelName, runStamp, "elements", "ELETRICA", toString cEle, toString MIN_ELETRICA_ELEMS,
     if MIN_ELETRICA_ELEMS ≤ cEle then "PASS" else "FAIL",
     if MIN_ELETRICA_ELEMS ≤ cEle then "" else "Elementos Elétrica abaixo do mínimo."],
    [modelName, runStamp, "elements", "INFRA", toString cInf, toString MIN_INFRA_ELEMS,
     if MIN_INFRA_ELEMS ≤ cInf then "PASS" else "FAIL",
     if MIN_INFRA_ELEMS ≤ cInf then "" else "Elementos Infra abaixo do mínimo."],
    [modelName, runStamp, "elements", "SEGURANCA", toString cSeg, toString MIN_SEG_ELEMS,
     if MIN_SEG_ELEMS = 0 ∨ MIN_SEG_ELEMS ≤ cSeg then "PASS" else "FAIL",
     if MIN_SEG_ELEMS = 0 ∨ MIN_SEG_ELEMS ≤ cSeg then "" else "Segurança abaixo do mínimo."]]
   ++ warns.map fun w => [modelName, runStamp, "warn", "CONSISTENCIA", "", "", "WARN", w])

/-! ## ResumoModelo: top-categories CSV -/

/-- Embeds `write_topcats(path)` of `ResumoModelo`: the path written to
and the row sequence (header plus one row per `most_common(TOP_N)`
entry, each citing the total element count). -/
def write_topcats (path modelName : String) (totalElements : Nat)
    (topcats : List (String × Nat)) : String × List (List String) :=
  (path,
   ["model", "total_elementos", "categoria", "qtd"] ::
   topcats.map fun cq => [modelName, toString totalElements, cq.1, toString cq.2])

/-! ## Extração completa: collect_params and the main dual-write loop -/

/-- `MAX_PARAM_LEN` in `Extrair Elementos Completo`. -/
def MAX_PARAM_LEN : Nat := 500

/-- `MAX_PARAM_LEN` in `Extrair Elementos Rapido`. -/
def MAX_PARAM_LEN_RAPIDO : Nat := 300

/-- One parameter as read from a host element: `name`/`storage_type`
come from the definition, `val` is the `param_to_str` string of the
stored value, and `isShared`/`guid`/`group` the shared-parameter
metadata.  The host reads themselves are outside the embedding. -/
structure ParamRec where
  name : String
  storageType : String
  val : String
  isShared : Bool
  guid : String
  group : String
deriving DecidableEq

/-- Embeds `collect_params(el, max_len)` of the complete extraction:
parameters whose string value is empty are dropped, values longer than
`maxLen` are truncated, every other field is copied unchanged. -/
def collect_params (maxLen : Nat) : List ParamRec → List ParamRec
  | [] => []
  | p :: rest =>
    if p.val = "" then collect_params maxLen rest
    else { p with val := truncateVal maxLen p.val } :: collect_params maxLen rest

/-- The values the complete extraction reads from one element inside its
`try` block, already stringified exactly as the loop body does
(`el_id_str`, `bbox_to_dict`, `location_to_dict`, ...).  `rawInstParams`
and `rawTypeParams` are the untruncated parameter lists of the element
and of its type. -/
structure ElemData where
  elIdStr : String
  uniqueId : String
  cat : String
  fam : String
  typ : String
  lvl : String
  workset : String
  phaseC : String
  phaseD : String
  designOpt : String
  locKind : String
  locVal : String
  bbMin : String
  bbMax : String
  rawInstParams : List ParamRec
  rawTypeParams : List ParamRec

/-- `ELEM_HEADER` of the complete extraction. -/
def ELEM_HEADER : List String :=
  ["model", "element_id", "unique_id", "category", "family", "type", "level", "workset",
   "phase_created", "phase_demolished", "design_option", "loc_kind", "loc_value",
   "bbox_min", "bbox_max", "run_stamp"]

/-- `PARAM_HEADER` of the complete extraction. -/
def PARAM_HEADER : List String :=
  ["model", "unique_id", "element_id", "scope", "param_name", "storage_type", "value_str",
   "is_shared", "guid", "group"]

/-- The `row` list built for one element in the complete extraction. -/
def elemRow (modelName runStamp : String) (d : ElemData) : List String :=
  [modelName, d.elIdStr, d.uniqueId, d.cat, d.fam, d.typ, d.lvl, d.workset,
   d.phaseC, d.phaseD, d.designOpt, d.locKind, d.locVal, d.bbMin, d.bbMax, runStamp]

/-- Embeds `write_params_to_csv`: one row per parameter of the list. -/
def paramRows (modelName ownerUid ownerId scope : String) (ps : List ParamRec) :
    List (List String) :=
  ps.map fun p =>
    [modelName, ownerUid, ownerId, scope, p.name, p.storageType, p.val,
     if p.isShared then "1" else "0", p.guid, p.group]

/-- The four open CSV files of the complete extraction (`ew`, `ew_lat`,
`pw`, `pw_lat`) as row buffers, plus the `ok`/`skipped` counters. -/
structure CompletoState where
  ewRows : List (List String)
  ewLatRows : List (List String)
  pwRows : List (List String)
  pwLatRows : List (List String)
  ok : Nat
  skipped : Nat

/-- One iteration of the complete extraction's main loop.  A failed host
read (`Except.error`) is the `except: skipped += 1; continue` arm; a
successful one writes the element row to both element CSVs, the
instance- and type-parameter rows to both parameter CSVs, and bumps
`ok`. -/
def completoStep (modelName runStamp : String) (st : CompletoState)
    (e : Except Unit ElemData) : CompletoState :=
  match e with
  | .error _ => { st with skipped := st.skipped + 1 }
  | .ok d =>
    let instP := collect_params MAX_PARAM_LEN d.rawInstParams
    let typeP := collect_params MAX_PARAM_LEN d.rawTypeParams
    let row := elemRow modelName runStamp d
    { st with
      ewRows := st.ewRows ++ [row]
      ewLatRows := st.ewLatRows ++ [row]
      pwRows := st.pwRows
        ++ paramRows modelName d.uniqueId d.elIdStr "instance" instP
        ++ paramRows modelName d.uniqueId d.elIdStr "type" typeP
      pwLatRows := st.pwLatRows
        ++ paramRows modelName d.uniqueId d.elIdStr "instance" instP
        ++ paramRows modelName d.uniqueId d.elIdStr "type" typeP
      ok := st.ok + 1 }

/-- The state just before the loop: both element CSVs hold only
`ELEM_HEADER`, both parameter CSVs only `PARAM_HEADER`. -/
def completoInit : CompletoState :=
  { ewRows := [ELEM_HEADER], ewLatRows := [ELEM_HEADER],
    pwRows := [PARAM_HEADER], pwLatRows := [PARAM_HEADER], ok := 0, skipped := 0 }

/-- The complete extraction's main loop over the collected elements.
Each list entry is the outcome of the host reads for one element within
the run (the claims assume those reads are deterministic within a run). -/
def completoRun (modelName runStamp : String) (es : List (Except Unit ElemData)) :
    CompletoState :=
  es.foldl (completoStep modelName runStamp) completoInit

/-- Adds `n` to the `skipped` counter of a state (proof helper shape for
the catch-and-continue statement). -/
def addSkip (n : Nat) (st : CompletoState) : CompletoState :=
  { st with skipped := st.skipped + n }

/-! ## Extração rápida: category filter and top-parameter rows -/

/-- `ALLOW_CATEGORIES` in `Extrair Elementos Rapido`. -/
def ALLOW_CATEGORIES : List String :=
  ["Conduites", "Conexoes do conduite", "Fiacao", "Circuitos eletricos",
   "Luminarias", "Dispositivos eletricos", "Equipamentos eletricos",
   "Bandejas de cabos", "Conexoes da bandeja de cabos",
   "Eletrocalhas", "Conexoes da eletrocalha",
   "Identificadores de luminaria", "Identificadores de dispositivos eletricos",
   "Ambientes", "Salas", "Niveis", "Linhas de centro"]

/-- `TOP_PARAMS` in `Extrair Elementos Rapido`. -/
def TOP_PARAMS : List String :=
  ["Mark", "Marca", "Comentarios", "Comment",
   "Nome do sistema", "Classificacao do sistema", "System Classification",
   "Numero do circuito", "Circuit Number",
   "Painel", "Panel",
   "Tensao", "Voltage",
   "Carga", "Load",
   "Fabricante", "Manufacturer",
   "Modelo", "Model"]

/-- The fast extraction's category filter:
`if cat and (cat not in ALLOW_CATEGORIES): continue`.  `true` means the
element is skipped by the `continue` (a Python string is truthy iff
non-empty). -/
def rapidoSkips (cat : String) : Bool :=
  (!(cat == "")) && (!(ALLOW_CATEGORIES.contains cat))

/-- Embeds `write_top_params` of the fast extraction: parameters outside
`TOP_PARAMS` or with an empty value are skipped, values longer than 300
characters are truncated, one six-field row is written per kept
parameter. -/
def write_top_params (modelName uid eid runStamp : String) : List ParamRec → List (List String)
  | [] => []
  | p :: rest =>
    if !(TOP_PARAMS.contains p.name) then write_top_params modelName uid eid runStamp rest
    else if p.val = "" then write_top_params modelName uid eid runStamp rest
    else [modelName, uid, eid, p.name, truncateVal MAX_PARAM_LEN_RAPIDO p.val, runStamp] ::
      write_top_params modelName uid eid runStamp rest

/-! ## Extrair Metadados: nested sheet/viewport loop -/

/-- `HEADER` of `sheets_views.csv` in `Extrair Metadados`. -/
def METADADOS_HEADER : List String :=
  ["model", "run_stamp", "sheet_number", "sheet_name", "sheet_id", "view_id",
   "view_name", "view_type", "view_discipline", "view_scale", "is_template"]

/-- The two open CSV files of `Extrair Metadados` plus its counters. -/
structure MetaState where
  rows : List (List String)
  latRows : List (List String)
  totalPairs : Nat
  skipped : Nat

/-- The inner viewport loop body: a failed viewport read is the inner
`except: skipped += 1; continue`; a successful one appends its row to
both files and bumps `total_pairs`. -/
def metaStepV (st : MetaState) (v : Except Unit (List String)) : MetaState :=
  match v with
  | .error _ => { st with skipped := st.skipped + 1 }
  | .ok row =>
    { st with
      rows := st.rows ++ [row]
      latRows := st.latRows ++ [row]
      totalPairs := st.totalPairs + 1 }

/-- The outer sheet loop body: a failed sheet read (the outer `except`)
bumps `skipped` once; a successful one runs the viewport loop. -/
def metaStepS (st : MetaState) (sh : Except Unit (List (Except Unit (List String)))) :
    MetaState :=
  match sh with
  | .error _ => { st with skipped := st.skipped + 1 }
  | .ok vs => vs.foldl metaStepV st

/-- The sheet/viewport loop of `Extrair Metadados`, starting from the
header-only files and zeroed counters. -/
def metadadosRun (sheets : List (Except Unit (List (Except Unit (List String))))) :
    MetaState :=
  sheets.foldl metaStepS
    { rows := [METADADOS_HEADER], latRows := [METADADOS_HEADER], totalPairs := 0, skipped := 0 }

/-- The number of records the metadata loop attempts: one per failed
sheet, one per viewport of each readable sheet. -/
def metaAttempts : List (Except Unit (List (Except Unit (List String)))) → Nat
  | [] => 0
  | .error _ :: rest => 1 + metaAttempts rest
  | .ok vs :: rest => vs.length + metaAttempts rest

/-! ## TestAPI: the fingerprint JSON and the BOM-prefixed writers -/

/-- Python values serialisable by the scripts (strings, ints, booleans,
lists, dicts).  Floats (`elevation_m`) are modelled as integers; only
the leading character of a serialisation is used by the claims. -/
inductive PyJson where
  | str (s : String)
  | num (n : Int)
  | boolean (b : Bool)
  | arr (xs : List PyJson)
  | obj (fields : List (String × PyJson))

mutual

/-- Modelled from the Python standard library: `json.dumps`.  String
escaping and the `indent=2` layout are immaterial to the claims; what
matters is that a dict serialises to `{...}` and never to a BOM. -/
def jsonDumps : PyJson → String
  | .str s => "\"" ++ s ++ "\""
  | .num n => toString n
  | .boolean b => if b then "true" else "false"
  | .arr xs => "[" ++ jsonDumpsList xs ++ "]"
  | .obj fs => "\x7b" ++ jsonDumpsFields fs ++ "\x7d"

/-- Comma-separated serialisation of a JSON array body. -/
def jsonDumpsList : List PyJson → String
  | [] => ""
  | [x] => jsonDumps x
  | x :: y :: rest => jsonDumps x ++ ", " ++ jsonDumpsList (y :: rest)

/-- Comma-separated serialisation of a JSON object body. -/
def jsonDumpsFields : List (String × PyJson) → String
  | [] => ""
  | [kv] => "\"" ++ kv.1 ++ "\": " ++ jsonDumps kv.2
  | kv :: kw :: rest => "\"" ++ kv.1 ++ "\": " ++ jsonDumps kv.2 ++ ", " ++ jsonDumpsFields (kw :: rest)

end

/-- The `fingerprint` dict of `TestAPI` (section 11), with the host-read
leaves as parameters, in the field order of the source. -/
def fingerprintJson (runStamp modelName vNum vName vBuild pName pNumber pClient pAddress
    pStatus pAuthor : String)
    (totalElements uniqueCategories levelsCount linksCount phasesCount warningsCount
     designOptionsCount worksetsCount : Nat) (isWorkshared : Bool)
    (levels : List (String × Int)) (phases : List String)
    (topCategories : List (String × Nat)) : PyJson :=
  PyJson.obj
    [("run_stamp", .str runStamp),
     ("model", .str modelName),
     ("revit_version", .obj
       [("number", .str vNum), ("name", .str vName), ("build", .str vBuild)]),
     ("project_info", .obj
       [("name", .str pName), ("number", .str pNumber), ("client", .str pClient),
        ("address", .str pAddress), ("status", .str pStatus), ("author", .str pAuthor)]),
     ("stats", .obj
       [("total_elements", .num totalElements), ("unique_categories", .num uniqueCategories),
        ("levels_count", .num levelsCount), ("links_count", .num linksCount),
        ("phases_count", .num phasesCount), ("warnings_count", .num warningsCount),
        ("design_options_count", .num designOptionsCount),
        ("is_workshared", .boolean isWorkshared), ("worksets_count", .num worksetsCount)]),
     ("levels", .arr (levels.map fun le =>
        .obj [("name", .str le.1), ("elevation_m", .num le.2)])),
     ("phases", .arr (phases.map PyJson.str)),
     ("top_categories", .arr (topCategories.map fun cq =>
        .obj [("category", .str cq.1), ("count", .num cq.2)]))]

/-- The bytes `TestAPI` writes to `model_fingerprint.json` (history and
latest alike): `jf.write(json.dumps(safe_fp, ...))` encoded as UTF-8 —
with no BOM written first. -/
def fingerprintFileBytes (fp : PyJson) : List Nat := utf8Encode (jsonDumps fp)

/-- The bytes of a file opened by any script's `write_bom_csv`: the
UTF-8 BOM followed by whatever rows are subsequently written. -/
def bomCsvFileBytes (body : List Nat) : List Nat := utf8Encode "﻿" ++ body

/-- The bytes of a file produced by the `write_json` helpers of
`ValidarLayout`, `ResumoModelo` and the complete extraction: the UTF-8
BOM followed by the UTF-8 encoding of the `json.dumps` payload. -/
def writeJsonFileBytes (payload : String) : List Nat :=
  utf8Encode "﻿" ++ utf8Encode payload

/-! ## Sheet-class Counter and the per-discipline sheet sums -/

/-- Python `Counter` update `c[k] += 1` on an association list: an
existing key's count is bumped, a new key starts at 1. -/
def counterAdd : List (String × Nat) → String → List (String × Nat)
  | [], k => [(k, 1)]
  | kv :: rest, k =>
    if kv.1 = k then (kv.1, kv.2 + 1) :: rest else kv :: counterAdd rest k

/-- `sheet_classes`: the Counter of `classify_sheet` over all sheets
(each sheet given by its `SheetNumber + " " + Name` text). -/
def sheetClasses (texts : List String) : List (String × Nat) :=
  texts.foldl (fun c t => counterAdd c (classify_sheet SHEET_RULES t)) []

/-- One accumulator of the `for k, v in sheet_classes.items()` loop of
`ValidarLayout`: the counts of every label containing `needle` are
summed. -/
def sumWhere (needle : String) (items : List (String × Nat)) : Nat :=
  items.foldl (fun acc kv => if hasSub needle.data kv.1.data then acc + kv.2 else acc) 0

/-- `s_ele` of `ValidarLayout`: sheets whose label contains "ELETRICA". -/
def s_ele (items : List (String × Nat)) : Nat := sumWhere "ELETRICA" items

/-- `s_inf` of `ValidarLayout`: sheets whose label contains "INFRA". -/
def s_inf (items : List (String × Nat)) : Nat := sumWhere "INFRA" items

/-- `s_seg` of `ValidarLayout`: sheets whose label contains "SEGURANCA". -/
def s_seg (items : List (String × Nat)) : Nat := sumWhere "SEGURANCA" items

/-- Modelled from the spec: the number of sheets whose classification
label contains the discipline name as a substring. -/
def countClassified (needle : String) (texts : List String) : Nat :=
  (texts.filter fun t => hasSub needle.data (classify_sheet SHEET_RULES t).data).length

/-! ## Extração rápida: the dual-write element loop -/

/-- `ELEM_HEADER` of the fast extraction. -/
def RAPIDO_ELEM_HEADER : List String :=
  ["model", "element_id", "unique_id", "category", "family", "type", "level", "workset",
   "loc_kind", "loc_value", "bbox_min", "bbox_max", "run_stamp"]

/-- `PARAM_HEADER` of the fast extraction. -/
def RAPIDO_PARAM_HEADER : List String :=
  ["model", "unique_id", "element_id", "param_name", "value_str", "run_stamp"]

/-- The values the fast extraction reads from one element inside its
`try` block, already stringified as the loop body does; `rawParams` is
the element's untruncated parameter list fed to `write_top_params`. -/
structure RapidoElem where
  elIdStr : String
  uniqueId : String
  cat : String
  fam : String
  typ : String
  lvl : String
  workset : String
  locKind : String
  locVal : String
  bbMin : String
  bbMax : String
  rawParams : List ParamRec

/-- The `row` list built for one kept element in the fast extraction. -/
def rapidoRow (modelName runStamp : String) (d : RapidoElem) : List String :=
  [modelName, d.elIdStr, d.uniqueId, d.cat, d.fam, d.typ, d.lvl, d.workset,
   d.locKind, d.locVal, d.bbMin, d.bbMax, runStamp]

/-- The four open CSV files of the fast extraction (`ew`, `ew_lat`,
`pw`, `pw_lat`) as row buffers, plus the `kept`/`skipped` counters. -/
structure RapidoState where
  ewRows : List (List String)
  ewLatRows : List (List String)
  pwRows : List (List String)
  pwLatRows : List (List String)
  kept : Nat
  skipped : Nat

/-- One iteration of the fast extraction's element loop.  A failed host
read is the `except: skipped += 1; continue` arm; a successful one is
dropped by the category filter (`continue`, touching nothing) or writes
its element row and top-parameter rows to both file pairs and bumps
`kept`. -/
def rapidoStep (modelName runStamp : String) (st : RapidoState)
    (e : Except Unit RapidoElem) : RapidoState :=
  match e with
  | .error _ => { st with skipped := st.skipped + 1 }
  | .ok d =>
    if rapidoSkips d.cat then st
    else
      { st with
        ewRows := st.ewRows ++ [rapidoRow modelName runStamp d]
        ewLatRows := st.ewLatRows ++ [rapidoRow modelName runStamp d]
        pwRows := st.pwRows
          ++ write_top_params modelName d.uniqueId d.elIdStr runStamp d.rawParams
        pwLatRows := st.pwLatRows
          ++ write_top_params modelName d.uniqueId d.elIdStr runStamp d.rawParams
        kept := st.kept + 1 }

/-- The state just before the fast extraction's loop: both element CSVs
hold only their header, both parameter CSVs only theirs. -/
def rapidoInit : RapidoState :=
  { ewRows := [RAPIDO_ELEM_HEADER], ewLatRows := [RAPIDO_ELEM_HEADER],
    pwRows := [RAPIDO_PARAM_HEADER], pwLatRows := [RAPIDO_PARAM_HEADER],
    kept := 0, skipped := 0 }

/-- The fast extraction's element loop over the collected elements. -/
def rapidoRun (modelName runStamp : String) (es : List (Except Unit RapidoElem)) :
    RapidoState :=
  es.foldl (rapidoStep modelName runStamp) rapidoInit

/-- Adds `n` to the `skipped` counter of a fast-extraction state. -/
def addSkipRapido (n : Nat) (st : RapidoState) : RapidoState :=
  { st with skipped := st.skipped + n }

/-- The number of records of a loop whose host reads fail (the records
that take an `except` arm). -/
def countErrors : List (Except Unit α) → Nat
  | [] => 0
  | .error _ :: rest => 1 + countErrors rest
  | .ok _ :: rest => countErrors rest

/-! ## The remaining per-file writers (dual-saved) -/

/-- Embeds `write_sheets(path)` of `ResumoModelo` (`folhas_resumo.csv`):
the path written to and the row sequence — header plus one row per
readable sheet (a sheet whose reads throw is skipped by the inner
`except: continue`), carrying the sheet's number, name and
classification. -/
def write_sheets (path modelName : String) (sheets : List (Except Unit (String × String))) :
    String × List (List String) :=
  (path,
   ["model", "sheet_number", "sheet_name", "classificacao"] ::
   sheets.filterMap fun sh =>
     match sh with
     | .error _ => none
     | .ok nn => some [modelName, nn.1, nn.2,
         classify_sheet SHEET_RULES (nn.1 ++ " " ++ nn.2)])

/-- `HEADER` of `categorias.csv` in `TestAPI` (section 10). -/
def TESTAPI_CATS_HEADER : List String := ["run_stamp", "model", "categoria", "quantidade"]

/-- One iteration of `TestAPI`'s category-ranking loop: the same `row`
is appended to `w` and to `w_lat`. -/
def testApiCatsStep (runStamp modelName : String)
    (bufs : List (List String) × List (List String)) (cq : String × Nat) :
    List (List String) × List (List String) :=
  (bufs.1 ++ [[runStamp, modelName, cq.1, toString cq.2]],
   bufs.2 ++ [[runStamp, modelName, cq.1, toString cq.2]])

/-- `TestAPI`'s `categorias.csv` dual write: both files start with the
header, then the loop appends one row per `most_common()` entry to
each. -/
def testApiCatsRun (runStamp modelName : String) (entries : List (String × Nat)) :
    List (List String) × List (List String) :=
  entries.foldl (testApiCatsStep runStamp modelName)
    ([TESTAPI_CATS_HEADER], [TESTAPI_CATS_HEADER])

/-- The `write_json(path)` helper shared (textually identically) by
`ValidarLayout`, `ResumoModelo` and the complete extraction: the path
written to and the file bytes, a BOM followed by the UTF-8 encoding of
the `json.dumps` payload — the payload does not depend on the path. -/
def write_json_file (path : String) (payload : String) : String × List Nat :=
  (path, writeJsonFileBytes payload)

/-- `TestAPI`'s fingerprint loop body for one of the two paths: the
serialisation is recomputed from the same `fingerprint` dict each
iteration, so the bytes written do not depend on the path. -/
def testApiFingerprintWrite (path : String) (fp : PyJson) : String × List Nat :=
  (path, fingerprintFileBytes fp)

/-- A concrete 501-character parameter value (for exercising the
truncation bound of the complete extraction). -/
def longVal : String := String.mk (List.replicate 501 'x')

/-! ## Helper lemmas -/

/-- The classifier's hit list is exactly the matching rules' labels. -/
theorem hitsOf_eq_filter (rules : List (String × List String)) (t : String) :
    hitsOf rules t
      = (rules.filter fun lk => anyKeyHits lk.2 t).map Prod.fst := by
  induction rules with
  | nil => rfl
  | cons r rs ih =>
    cases h : anyKeyHits r.2 t with
    | false => simp [hitsOf, List.filter_cons, h, ih]
    | true => simp [hitsOf, List.filter_cons, h, ih]

/-- Unfolding of `classify_sheet`. -/
theorem classify_sheet_def (rules : List (String × List String)) (raw : String) :
    classify_sheet rules raw
      = if (hitsOf rules (norm_upper raw)).isEmpty then "OUTROS"
        else joinPlus (pySortedSet (hitsOf rules (norm_upper raw))) := rfl

/-- Membership in an `insertSD` insertion. -/
theorem mem_insertSD {a x : String} {l : List String} :
    a ∈ insertSD x l ↔ a = x ∨ a ∈ l := by
  induction l with
  | nil => simp [insertSD]
  | cons y ys ih =>
    simp only [insertSD]
    split_ifs with h1 h2
    · subst h1
      simp only [List.mem_cons]
      tauto
    · simp only [List.mem_cons]
    · simp only [List.mem_cons, ih]
      tauto

/-- `insertSD` never produces the empty list. -/
theorem insertSD_ne_nil (x : String) (l : List String) : insertSD x l ≠ [] := by
  cases l with
  | nil => simp [insertSD]
  | cons y ys => simp only [insertSD]; split_ifs <;> simp

/-- Folding `insertSD` preserves non-emptiness of the accumulator. -/
theorem foldl_insertSD_ne_nil :
    ∀ (l acc : List String), acc ≠ [] →
      List.foldl (fun acc x => insertSD x acc) acc l ≠ [] := by
  intro l
  induction l with
  | nil => intro acc h; simpa using h
  | cons x xs ih => intro acc _; exact ih (insertSD x acc) (insertSD_ne_nil x acc)

/-- `sorted(list(set(l)))` of a non-empty list is non-empty. -/
theorem pySortedSet_ne_nil {l : List String} (h : l ≠ []) : pySortedSet l ≠ [] := by
  cases l with
  | nil => exact absurd rfl h
  | cons x xs =>
    show List.foldl (fun acc x => insertSD x acc) (insertSD x []) xs ≠ []
    exact foldl_insertSD_ne_nil xs (insertSD x []) (insertSD_ne_nil x [])

/-- Membership across the `insertSD` fold. -/
theorem mem_foldl_insertSD :
    ∀ (l acc : List String) (a : String),
      a ∈ List.foldl (fun acc x => insertSD x acc) acc l ↔ a ∈ acc ∨ a ∈ l := by
  intro l
  induction l with
  | nil => intro acc a; simp
  | cons x xs ih =>
    intro acc a
    rw [List.foldl_cons, ih (insertSD x acc) a, mem_insertSD]
    simp [List.mem_cons]
    tauto

/-- `sorted(list(set(l)))` has the same members as `l`. -/
theorem mem_pySortedSet {a : String} {l : List String} :
    a ∈ pySortedSet l ↔ a ∈ l := by
  rw [pySortedSet, mem_foldl_insertSD]
  simp

/-- Two strings with the same character list are equal. -/
theorem string_eq_of_data_eq {x y : String} (h : x.data = y.data) : x = y := by
  cases x with
  | mk d1 =>
    cases y with
    | mk d2 => exact congrArg String.mk h

/-- The code-point order on character lists is transitive. -/
theorem charListLt_trans :
    ∀ (as bs cs : List Char), charListLt as bs = true → charListLt bs cs = true →
      charListLt as cs = true := by
  intro as
  induction as with
  | nil =>
    intro bs cs h1 h2
    cases bs with
    | nil => exact absurd h1 (by simp [charListLt])
    | cons b bs2 =>
      cases cs with
      | nil => exact absurd h2 (by simp [charListLt])
      | cons c cs2 => simp [charListLt]
  | cons a as2 ih =>
    intro bs cs h1 h2
    cases bs with
    | nil => exact absurd h1 (by simp [charListLt])
    | cons b bs2 =>
      cases cs with
      | nil => exact absurd h2 (by simp [charListLt])
      | cons c cs2 =>
        simp only [charListLt] at h1 h2 ⊢
        by_cases hab : a.toNat < b.toNat
        · by_cases hbc : b.toNat < c.toNat
          · rw [if_pos (show a.toNat < c.toNat by omega)]
          · by_cases hcb : c.toNat < b.toNat
            · rw [if_neg hbc, if_pos hcb] at h2
              exact absurd h2 (by simp)
            · rw [if_pos (show a.toNat < c.toNat by omega)]
        · by_cases hba : b.toNat < a.toNat
          · rw [if_neg hab, if_pos hba] at h1
            exact absurd h1 (by simp)
          · rw [if_neg hab, if_neg hba] at h1
            by_cases hbc : b.toNat < c.toNat
            · rw [if_pos (show a.toNat < c.toNat by omega)]
            · by_cases hcb : c.toNat < b.toNat
              · rw [if_neg hbc, if_pos hcb] at h2
                exact absurd h2 (by simp)
              · rw [if_neg hbc, if_neg hcb] at h2
                rw [if_neg (show ¬a.toNat < c.toNat by omega),
                  if_neg (show ¬c.toNat < a.toNat by omega)]
                exact ih bs2 cs2 h1 h2

/-- Character lists unrelated in either direction of the code-point
order are equal. -/
theorem charListLt_eq_of_not_lt :
    ∀ (as bs : List Char), charListLt as bs = false → charListLt bs as = false →
      as = bs := by
  intro as
  induction as with
  | nil =>
    intro bs h1 _
    cases bs with
    | nil => rfl
    | cons b bs2 => exact absurd h1 (by simp [charListLt])
  | cons a as2 ih =>
    intro bs h1 h2
    cases bs with
    | nil => exact absurd h2 (by simp [charListLt])
    | cons b bs2 =>
      simp only [charListLt] at h1 h2
      by_cases hab : a.toNat < b.toNat
      · rw [if_pos hab] at h1
        exact absurd h1 (by simp)
      · by_cases hba : b.toNat < a.toNat
        · rw [if_pos hba] at h2
          exact absurd h2 (by simp)
        · have hnat : a.toNat = b.toNat := by omega
          have hchar : a = b := Char.eq_of_val_eq (UInt32.ext hnat)
          rw [if_neg hab, if_neg hba] at h1
          rw [if_neg hba, if_neg hab] at h2
          rw [hchar, ih bs2 h1 h2]

/-- Strings unrelated in either direction of `strLtB` are equal. -/
theorem strLtB_eq_of_not_lt {x y : String}
    (h1 : strLtB x y = false) (h2 : strLtB y x = false) : x = y :=
  string_eq_of_data_eq (charListLt_eq_of_not_lt x.data y.data h1 h2)

/-- `insertSD` preserves strict sortedness in the code-point order. -/
theorem pairwise_insertSD (x : String) (l : List String)
    (h : l.Pairwise (fun a b => strLtB a b = true)) :
    (insertSD x l).Pairwise (fun a b => strLtB a b = true) := by
  induction l with
  | nil => simp [insertSD]
  | cons y ys ih =>
    rw [List.pairwise_cons] at h
    simp only [insertSD]
    split_ifs with h1 h2
    · exact List.Pairwise.cons h.1 h.2
    · refine List.Pairwise.cons ?_ (List.Pairwise.cons h.1 h.2)
      intro a ha
      rcases List.mem_cons.mp ha with rfl | ha2
      · exact h2
      · exact charListLt_trans x.data y.data a.data h2 (h.1 a ha2)
    · have hyx : strLtB y x = true := by
        cases hxy2 : strLtB y x with
        | true => rfl
        | false =>
          exact absurd (strLtB_eq_of_not_lt (by simpa using h2) hxy2) h1
      refine List.Pairwise.cons ?_ (ih h.2)
      intro a ha
      rcases mem_insertSD.mp ha with rfl | ha2
      · exact hyx
      · exact h.1 a ha2

/-- Folding `insertSD` preserves strict sortedness. -/
theorem pairwise_foldl_insertSD :
    ∀ (l acc : List String), acc.Pairwise (fun a b => strLtB a b = true) →
      (List.foldl (fun acc x => insertSD x acc) acc l).Pairwise
        (fun a b => strLtB a b = true) := by
  intro l
  induction l with
  | nil => intro acc h; simpa using h
  | cons x xs ih => intro acc h; exact ih (insertSD x acc) (pairwise_insertSD x acc h)

/-- `sorted(list(set(l)))` is strictly sorted in the code-point order
(so also duplicate-free). -/
theorem pairwise_pySortedSet (l : List String) :
    (pySortedSet l).Pairwise (fun a b => strLtB a b = true) :=
  pairwise_foldl_insertSD l [] (by simp)

/-- The `"+"`-join of a non-empty list of labels none of which is
`"OUTROS"` is not `"OUTROS"`: a single label differs from it, and a join
of two or more contains the char `'+'`, which `"OUTROS"` does not. -/
theorem joinPlus_ne_OUTROS :
    ∀ l : List String, l ≠ [] → (∀ x ∈ l, x ≠ "OUTROS") → joinPlus l ≠ "OUTROS" := by
  intro l
  match l with
  | [] => intro h _; exact absurd rfl h
  | [x] => intro _ hall; simpa [joinPlus] using hall x (by simp)
  | x :: y :: rest =>
    intro _ _ hcontra
    have hmem : '+' ∈ (joinPlus (x :: y :: rest)).data := by
      show '+' ∈ (x ++ "+" ++ joinPlus (y :: rest)).data
      simp [String.data_append]
    rw [hcontra] at hmem
    exact absurd hmem (by decide)

/-- An empty hit list is exactly the absence of any keyword match. -/
theorem hitsOf_nil_iff (rules : List (String × List String)) (raw : String) :
    hitsOf rules (norm_upper raw) = [] ↔ noKeywordMatches rules raw = true := by
  rw [hitsOf_eq_filter]
  simp [noKeywordMatches, anyKeyHits, List.filter_eq_nil_iff]

/-- Every hit is one of the table's labels. -/
theorem hitsOf_subset_labels {rules : List (String × List String)} {t : String} {x : String}
    (hx : x ∈ hitsOf rules t) : x ∈ rules.map Prod.fst := by
  rw [hitsOf_eq_filter] at hx
  rcases List.mem_map.mp hx with ⟨lk, hlk, rfl⟩
  exact List.mem_map_of_mem Prod.fst (List.mem_of_mem_filter hlk)

/-! ## Claim theorems -/

/-- C3 (counterexample): quantified over every `(label, keyword-list)`
table, the claimed iff fails — a table whose rule is labelled `"OUTROS"`
itself makes the classifier return `"OUTROS"` even though its keyword
does occur in the text. -/
theorem classify_outros_label_cex :
    ¬ ((classify_sheet [("OUTROS", ["A"])] "A" = "OUTROS")
        ↔ noKeywordMatches [("OUTROS", ["A"])] "A" = true) := by decide

/-- C3 (amended): for every table none of whose labels is the sentinel
`"OUTROS"` (as in the configured tables), the classifier returns
`"OUTROS"` if and only if no keyword of any rule is a substring of the
upper-cased input text. -/
theorem classify_outros_iff_no_match (rules : List (String × List String)) (raw : String)
    (h : "OUTROS" ∉ rules.map Prod.fst) :
    classify_sheet rules raw = "OUTROS" ↔ noKeywordMatches rules raw = true := by
  rw [classify_sheet_def]
  by_cases hc : hitsOf rules (norm_upper raw) = []
  · rw [if_pos (by simp [hc])]
    exact ⟨fun _ => (hitsOf_nil_iff rules raw).mp hc, fun _ => rfl⟩
  · rw [if_neg (by simp [List.isEmpty_iff, hc])]
    have hne : joinPlus (pySortedSet (hitsOf rules (norm_upper raw))) ≠ "OUTROS" := by
      apply joinPlus_ne_OUTROS _ (pySortedSet_ne_nil hc)
      intro x hx hxe
      have hmem : x ∈ rules.map Prod.fst := hitsOf_subset_labels (mem_pySortedSet.mp hx)
      rw [hxe] at hmem
      exact h hmem
    constructor
    · intro hcontra
      exact absurd hcontra hne
    · intro hnm
      exact absurd ((hitsOf_nil_iff rules raw).mpr hnm) hc

/-- C3 (witness): the amended iff applied to the configured table, whose
labels avoid the sentinel. -/
theorem classify_outros_iff_no_match_witness :
    ("OUTROS" ∉ SHEET_RULES.map Prod.fst) ∧
    (classify_sheet SHEET_RULES "ARQ-01 PLANTA BAIXA" = "OUTROS"
      ↔ noKeywordMatches SHEET_RULES "ARQ-01 PLANTA BAIXA" = true) :=
  ⟨by decide, classify_outros_iff_no_match SHEET_RULES "ARQ-01 PLANTA BAIXA" (by decide)⟩

/-- C4 (counterexample): the match is not case-insensitive in the
keyword — the lower-case keyword `"el"` is a case-insensitive substring
of the sheet text `"EL-01"`, yet the classifier outputs no label for it. -/
theorem classify_lowercase_keyword_cex :
    classify_sheet [("ELETRICA", ["el"])] "EL-01" = "OUTROS" ∧
    specCiSub "el" "EL-01" = true := by decide

/-- The classifier expressed through the matched-labels set. -/
theorem classify_eq_ite_matched (rules : List (String × List String)) (raw : String) :
    classify_sheet rules raw
      = (if matchedLabels rules raw = [] then "OUTROS"
         else joinPlus (pySortedSet (matchedLabels rules raw))) := by
  have he : hitsOf rules (norm_upper raw) = matchedLabels rules raw :=
    hitsOf_eq_filter rules (norm_upper raw)
  rw [classify_sheet_def, he]
  by_cases hm : matchedLabels rules raw = []
  · rw [if_pos (by simp [hm]), if_pos hm]
  · rw [if_neg (by simp [List.isEmpty_iff, hm]), if_neg hm]

/-- C4 (amended): for every text and table, the hit list — hence the set
of output labels — is exactly the rules having a keyword that occurs
verbatim in the upper-cased text: the text is case-folded, the keywords
are compared as written. -/
theorem classify_labels_verbatim_upper (rules : List (String × List String)) (raw : String) :
    hitsOf rules (norm_upper raw) = matchedLabels rules raw ∧
    classify_sheet rules raw
      = (if matchedLabels rules raw = [] then "OUTROS"
         else joinPlus (pySortedSet (matchedLabels rules raw))) :=
  ⟨hitsOf_eq_filter rules (norm_upper raw), classify_eq_ite_matched rules raw⟩

/-- C5: whenever at least one rule matches, the classifier's combined
result is the `"+"`-join of the matched labels de-duplicated and sorted
(strictly increasing, hence duplicate-free, with exactly the matched
labels as members). -/
theorem classify_join_sorted_dedup (rules : List (String × List String)) (raw : String)
    (h : matchedLabels rules raw ≠ []) :
    classify_sheet rules raw = joinPlus (pySortedSet (matchedLabels rules raw)) ∧
    (pySortedSet (matchedLabels rules raw)).Pairwise (fun a b => strLtB a b = true) ∧
    ∀ x, x ∈ pySortedSet (matchedLabels rules raw) ↔ x ∈ matchedLabels rules raw := by
  refine ⟨?_, pairwise_pySortedSet _, fun x => mem_pySortedSet⟩
  rw [classify_eq_ite_matched rules raw, if_neg h]

/-- C5 (witness): a sheet text matching two disciplines, classified as
their sorted join. -/
theorem classify_join_sorted_dedup_witness :
    (matchedLabels SHEET_RULES "EL-01 RACK" ≠ []) ∧
    (classify_sheet SHEET_RULES "EL-01 RACK"
        = joinPlus (pySortedSet (matchedLabels SHEET_RULES "EL-01 RACK")) ∧
     (pySortedSet (matchedLabels SHEET_RULES "EL-01 RACK")).Pairwise (fun a b => strLtB a b = true) ∧
     ∀ x, x ∈ pySortedSet (matchedLabels SHEET_RULES "EL-01 RACK")
        ↔ x ∈ matchedLabels SHEET_RULES "EL-01 RACK") :=
  ⟨by decide, classify_join_sorted_dedup SHEET_RULES "EL-01 RACK" (by decide)⟩

/-- C1: the validator approves exactly when every configured minimum —
a minimum of zero being unenforced — is met by its counter; equivalently
the failure-message list is empty.  The third conjunct shows the
consistency warnings do not block approval: a run with non-empty
warnings (sheets present, almost no elements) and no enforced minimum is
approved. -/
theorem validar_approved_iff_minimums :
    ∀ sEle sInf sSeg cEle cInf cSeg mSE mSI mSS mEE mEI mES : Nat,
      (approvedFor sEle sInf sSeg cEle cInf cSeg mSE mSI mSS mEE mEI mES = true ↔
        ((mSE = 0 ∨ mSE ≤ sEle) ∧ (mSI = 0 ∨ mSI ≤ sInf) ∧ (mSS = 0 ∨ mSS ≤ sSeg) ∧
         (mEE = 0 ∨ mEE ≤ cEle) ∧ (mEI = 0 ∨ mEI ≤ cInf) ∧ (mES = 0 ∨ mES ≤ cSeg))) ∧
      (approvedFor sEle sInf sSeg cEle cInf cSeg mSE mSI mSS mEE mEI mES = true ↔
        mkIssues sEle sInf sSeg cEle cInf cSeg mSE mSI mSS mEE mEI mES = []) ∧
      (approvedFor 1 1 0 0 0 0 0 0 0 0 0 0 = true ∧ mkWarns 1 1 0 0 ≠ []) := by
  intro sEle sInf sSeg cEle cInf cSeg mSE mSI mSS mEE mEI mES
  have hlen : approvedFor sEle sInf sSeg cEle cInf cSeg mSE mSI mSS mEE mEI mES = true ↔
      mkIssues sEle sInf sSeg cEle cInf cSeg mSE mSI mSS mEE mEI mES = [] := by
    rw [approvedFor, beq_iff_eq, List.length_eq_zero]
  have hmk : mkIssues sEle sInf sSeg cEle cInf cSeg mSE mSI mSS mEE mEI mES = [] ↔
      (¬(sEle < mSE) ∧ ¬(sInf < mSI) ∧ ¬(sSeg < mSS) ∧
       ¬(cEle < mEE) ∧ ¬(cInf < mEI) ∧ ¬(0 < mES ∧ cSeg < mES)) := by
    simp only [mkIssues, List.append_eq_nil, ite_eq_right_iff, List.cons_ne_nil,
      imp_false]
    tauto
  refine ⟨?_, hlen, by decide⟩
  rw [hlen, hmk]
  omega

/-- C2 (counterexample): the file `TestAPI` writes to
`model_fingerprint.json` does not begin with the UTF-8 byte-order mark —
its first byte is the `"{"` of the serialised dict. -/
theorem fingerprint_file_lacks_bom :
    beginsWith bomBytes (fingerprintFileBytes (fingerprintJson
      "2026-02-26_120000" "ModeloX" "2024" "Autodesk Revit 2024" "20240101.1700"
      "Projeto" "001" "Cliente" "Endereco" "Em andamento" "Autor"
      120 8 3 1 2 5 0 0 false [("Terreo", 0)] ["Fase 1"] [("Luminarias", 40)]))
    = false := by decide

/-- C2 (amended): every file opened through `write_bom_csv` (all CSVs of
the six scripts) and every file written by the `write_json` helpers of
`ValidarLayout`, `ResumoModelo` and the complete extraction begins with
the UTF-8 byte-order mark EF BB BF; only the `TestAPI` fingerprint JSON
is written without it. -/
theorem bom_writers_prefix_their_files :
    ∀ (body : List Nat) (payload : String),
      beginsWith bomBytes (bomCsvFileBytes body) = true ∧
      beginsWith bomBytes (writeJsonFileBytes payload) = true := by
  intro body payload
  exact ⟨rfl, rfl⟩

/-- C7: a collected value longer than the configured maximum is written
as exactly its first `maxLen` characters (so with length exactly
`maxLen`), shorter values unchanged; `collect_params` applies this at
500 and `write_top_params` at 300 to every value it writes. -/
theorem param_truncation :
    ∀ (maxLen : Nat) (v : String),
      (pyLen v > maxLen →
        truncateVal maxLen v = pySlice v maxLen ∧ pyLen (truncateVal maxLen v) = maxLen) ∧
      (pyLen v ≤ maxLen → truncateVal maxLen v = v) ∧
      (MAX_PARAM_LEN = 500 ∧ MAX_PARAM_LEN_RAPIDO = 300) ∧
      (∀ ps : List ParamRec,
        collect_params MAX_PARAM_LEN ps =
          (ps.filter fun p => p.val != "").map fun p =>
            { p with val := truncateVal MAX_PARAM_LEN p.val }) ∧
      (∀ (m u e r : String) (ps : List ParamRec),
        write_top_params m u e r ps =
          (ps.filter fun p => TOP_PARAMS.contains p.name && p.val != "").map fun p =>
            [m, u, e, p.name, truncateVal MAX_PARAM_LEN_RAPIDO p.val, r]) := by
  intro maxLen v
  refine ⟨?_, ?_, ⟨rfl, rfl⟩, ?_, ?_⟩
  · intro h
    rw [truncateVal, if_pos h]
    refine ⟨rfl, ?_⟩
    simp only [pyLen, pySlice, List.length_take]
    simp only [pyLen] at h
    omega
  · intro h
    rw [truncateVal, if_neg (by omega)]
  · intro ps
    induction ps with
    | nil => rfl
    | cons p rest ih =>
      by_cases h : p.val = ""
      · simp [collect_params, h, List.filter_cons, ih]
      · simp [collect_params, h, List.filter_cons, ih]
  · intro m u e r ps
    induction ps with
    | nil => rfl
    | cons p rest ih =>
      by_cases h1 : p.name ∈ TOP_PARAMS
      · have hb : TOP_PARAMS.contains p.name = true := List.elem_eq_true_of_mem h1
        by_cases h2 : p.val = ""
        · simp [write_top_params, hb, h1, h2, List.filter_cons, ih]
        · simp [write_top_params, hb, h1, h2, List.filter_cons, ih]
      · have hb : TOP_PARAMS.contains p.name = false := by
          cases hx : TOP_PARAMS.contains p.name
          · rfl
          · exact absurd (List.mem_of_elem_eq_true hx) h1
        simp [write_top_params, hb, h1, List.filter_cons, ih]

/-- C7 (witness): the truncation facts exercised at a 501-character
value (truncated to exactly 500) and at a short value (unchanged). -/
theorem param_truncation_witness :
    (pyLen longVal > 500 ∧
      (truncateVal 500 longVal = pySlice longVal 500 ∧
       pyLen (truncateVal 500 longVal) = 500)) ∧
    (pyLen "ok" ≤ 300 ∧ truncateVal 300 "ok" = "ok") := by
  have h1 : pyLen longVal > 500 := by
    show (List.replicate 501 'x').length > 500
    rw [List.length_replicate]
    omega
  have h2 : pyLen "ok" ≤ 300 := by decide
  exact ⟨⟨h1, (param_truncation 500 longVal).1 h1⟩,
         ⟨h2, (param_truncation 300 "ok").2.1 h2⟩⟩

/-- C9: the fast extraction's filter skips exactly the elements whose
category name is non-empty and outside `ALLOW_CATEGORIES`; an element
with an empty category name is kept and exported even though the empty
string is not in the allow-list. -/
theorem rapido_filter_keeps_empty_category :
    (∀ cat : String,
      rapidoSkips cat = true ↔ (cat ≠ "" ∧ ALLOW_CATEGORIES.contains cat = false)) ∧
    rapidoSkips "" = false ∧
    ALLOW_CATEGORIES.contains "" = false := by
  refine ⟨?_, by decide, by decide⟩
  intro cat
  cases hc : cat == "" with
  | true =>
    have hce : cat = "" := by simpa using hc
    simp [rapidoSkips, hc, hce]
  | false =>
    have hne : cat ≠ "" := by simpa using hc
    cases ha : ALLOW_CATEGORIES.contains cat with
    | true =>
      have hmem : cat ∈ ALLOW_CATEGORIES := List.mem_of_elem_eq_true ha
      simp [rapidoSkips, hc, ha, hne, hmem]
    | false =>
      have hnm : cat ∉ ALLOW_CATEGORIES := by
        intro hm
        have hx : ALLOW_CATEGORIES.contains cat = true := List.elem_eq_true_of_mem hm
        rw [ha] at hx
        exact Bool.noConfusion hx
      simp [rapidoSkips, hc, ha, hne, hnm]

/-- An invariant of the complete extraction's loop: if the history and
latest buffers agree, they still agree after any sequence of records. -/
theorem completo_dual_inv (modelName runStamp : String) :
    ∀ (es : List (Except Unit ElemData)) (st : CompletoState),
      st.ewRows = st.ewLatRows → st.pwRows = st.pwLatRows →
      (es.foldl (completoStep modelName runStamp) st).ewRows
        = (es.foldl (completoStep modelName runStamp) st).ewLatRows ∧
      (es.foldl (completoStep modelName runStamp) st).pwRows
        = (es.foldl (completoStep modelName runStamp) st).pwLatRows := by
  intro es
  induction es with
  | nil => intro st h1 h2; exact ⟨h1, h2⟩
  | cons e rest ih =>
    intro st h1 h2
    rw [List.foldl_cons]
    cases e with
    | error u => exact ih _ h1 h2
    | ok d => exact ih _ (by simp [completoStep, h1]) (by simp [completoStep, h2])

/-- An invariant of the fast extraction's loop: if the history and
latest buffers agree, they still agree after any sequence of records. -/
theorem rapido_dual_inv (modelName runStamp : String) :
    ∀ (es : List (Except Unit RapidoElem)) (st : RapidoState),
      st.ewRows = st.ewLatRows → st.pwRows = st.pwLatRows →
      (es.foldl (rapidoStep modelName runStamp) st).ewRows
        = (es.foldl (rapidoStep modelName runStamp) st).ewLatRows ∧
      (es.foldl (rapidoStep modelName runStamp) st).pwRows
        = (es.foldl (rapidoStep modelName runStamp) st).pwLatRows := by
  intro es
  induction es with
  | nil => intro st h1 h2; exact ⟨h1, h2⟩
  | cons e rest ih =>
    intro st h1 h2
    rw [List.foldl_cons]
    cases e with
    | error u => exact ih _ h1 h2
    | ok d =>
      by_cases hf : rapidoSkips d.cat = true
      · exact ih _ (by simp [rapidoStep, hf, h1]) (by simp [rapidoStep, hf, h2])
      · exact ih _ (by simp [rapidoStep, hf, h1]) (by simp [rapidoStep, hf, h2])

/-- An invariant of the metadata extraction's viewport loop: the two
`sheets_views.csv` buffers stay equal. -/
theorem meta_dual_inv_v :
    ∀ (vs : List (Except Unit (List String))) (st : MetaState),
      st.rows = st.latRows →
      (vs.foldl metaStepV st).rows = (vs.foldl metaStepV st).latRows := by
  intro vs
  induction vs with
  | nil => intro st h; exact h
  | cons v rest ih =>
    intro st h
    rw [List.foldl_cons]
    cases v with
    | error u => exact ih _ h
    | ok row => exact ih _ (by simp [metaStepV, h])

/-- An invariant of the metadata extraction's sheet loop: the two
`sheets_views.csv` buffers stay equal. -/
theorem meta_dual_inv_s :
    ∀ (sheets : List (Except Unit (List (Except Unit (List String))))) (st : MetaState),
      st.rows = st.latRows →
      (sheets.foldl metaStepS st).rows = (sheets.foldl metaStepS st).latRows := by
  intro sheets
  induction sheets with
  | nil => intro st h; exact h
  | cons sh rest ih =>
    intro st h
    rw [List.foldl_cons]
    cases sh with
    | error u => exact ih _ h
    | ok vs => exact ih _ (meta_dual_inv_v vs st h)

/-- An invariant of `TestAPI`'s `categorias.csv` loop: the two buffers
stay equal. -/
theorem testApiCats_dual_inv (runStamp modelName : String) :
    ∀ (entries : List (String × Nat)) (bufs : List (List String) × List (List String)),
      bufs.1 = bufs.2 →
      (entries.foldl (testApiCatsStep runStamp modelName) bufs).1
        = (entries.foldl (testApiCatsStep runStamp modelName) bufs).2 := by
  intro entries
  induction entries with
  | nil => intro bufs h; exact h
  | cons cq rest ih =>
    intro bufs h
    rw [List.foldl_cons]
    exact ih _ (by simp [testApiCatsStep, h])

/-- C6: within one run, the row (or byte) sequence of each history file
equals that of the same-named latest file, for every output file of the
six scripts: the interleaved dual-write loops of the complete and fast
extractions, of the metadata extraction and of `TestAPI`'s category
ranking write the same row to both buffers, and the per-file writers
(`write_validation_csv`, `write_topcats`, `write_sheets`, the three
scripts' `write_json` helpers and `TestAPI`'s fingerprint write) produce
content that does not depend on the path they are called with. -/
theorem dual_write_rows_equal :
    (∀ (modelName runStamp : String) (es : List (Except Unit ElemData)),
      (completoRun modelName runStamp es).ewRows
        = (completoRun modelName runStamp es).ewLatRows ∧
      (completoRun modelName runStamp es).pwRows
        = (completoRun modelName runStamp es).pwLatRows) ∧
    (∀ (modelName runStamp : String) (es : List (Except Unit RapidoElem)),
      (rapidoRun modelName runStamp es).ewRows
        = (rapidoRun modelName runStamp es).ewLatRows ∧
      (rapidoRun modelName runStamp es).pwRows
        = (rapidoRun modelName runStamp es).pwLatRows) ∧
    (∀ sheets : List (Except Unit (List (Except Unit (List String)))),
      (metadadosRun sheets).rows = (metadadosRun sheets).latRows) ∧
    (∀ (runStamp modelName : String) (entries : List (String × Nat)),
      (testApiCatsRun runStamp modelName entries).1
        = (testApiCatsRun runStamp modelName entries).2) ∧
    (∀ (p1 p2 modelName runStamp : String) (sEle sInf sSeg cEle cInf cSeg : Nat)
       (warns : List String),
      (write_validation_csv p1 modelName runStamp sEle sInf sSeg cEle cInf cSeg warns).2
        = (write_validation_csv p2 modelName runStamp sEle sInf sSeg cEle cInf cSeg warns).2) ∧
    (∀ (p1 p2 modelName : String) (totalElements : Nat) (topcats : List (String × Nat)),
      (write_topcats p1 modelName totalElements topcats).2
        = (write_topcats p2 modelName totalElements topcats).2) ∧
    (∀ (p1 p2 modelName : String) (sheets : List (Except Unit (String × String))),
      (write_sheets p1 modelName sheets).2 = (write_sheets p2 modelName sheets).2) ∧
    (∀ (p1 p2 : String) (payload : String),
      (write_json_file p1 payload).2 = (write_json_file p2 payload).2) ∧
    (∀ (p1 p2 : String) (fp : PyJson),
      (testApiFingerprintWrite p1 fp).2 = (testApiFingerprintWrite p2 fp).2) := by
  refine ⟨?_, ?_, ?_, ?_,
    fun _ _ _ _ _ _ _ _ _ _ _ => rfl, fun _ _ _ _ _ => rfl,
    fun _ _ _ _ => rfl, fun _ _ _ => rfl, fun _ _ _ => rfl⟩
  · intro modelName runStamp es
    exact completo_dual_inv modelName runStamp es completoInit rfl rfl
  · intro modelName runStamp es
    exact rapido_dual_inv modelName runStamp es rapidoInit rfl rfl
  · intro sheets
    exact meta_dual_inv_s sheets _ rfl
  · intro runStamp modelName entries
    exact testApiCats_dual_inv runStamp modelName entries _ rfl

/-- The loop counters of the complete extraction add up over any suffix. -/
theorem completo_count (modelName runStamp : String) :
    ∀ (es : List (Except Unit ElemData)) (st : CompletoState),
      (es.foldl (completoStep modelName runStamp) st).ok
        + (es.foldl (completoStep modelName runStamp) st).skipped
        = st.ok + st.skipped + es.length := by
  intro es
  induction es with
  | nil => intro st; simp
  | cons e rest ih =>
    intro st
    rw [List.foldl_cons]
    cases e with
    | error u => rw [ih]; simp [completoStep]; omega
    | ok d => rw [ih]; simp [completoStep]; omega

/-- One step commutes with shifting the `skipped` counter. -/
theorem completoStep_addSkip (modelName runStamp : String) (n : Nat)
    (st : CompletoState) (e : Except Unit ElemData) :
    completoStep modelName runStamp (addSkip n st) e
      = addSkip n (completoStep modelName runStamp st e) := by
  cases e with
  | error u =>
    simp only [completoStep, addSkip]
    congr 1
    omega
  | ok d => rfl

/-- The whole loop commutes with shifting the `skipped` counter. -/
theorem completo_foldl_addSkip (modelName runStamp : String) :
    ∀ (es : List (Except Unit ElemData)) (n : Nat) (st : CompletoState),
      es.foldl (completoStep modelName runStamp) (addSkip n st)
        = addSkip n (es.foldl (completoStep modelName runStamp) st) := by
  intro es
  induction es with
  | nil => intro n st; rfl
  | cons e rest ih =>
    intro n st
    rw [List.foldl_cons, List.foldl_cons, completoStep_addSkip, ih]

/-- The viewport loop counters of the metadata extraction add up. -/
theorem meta_count_v :
    ∀ (vs : List (Except Unit (List String))) (st : MetaState),
      (vs.foldl metaStepV st).totalPairs + (vs.foldl metaStepV st).skipped
        = st.totalPairs + st.skipped + vs.length := by
  intro vs
  induction vs with
  | nil => intro st; simp
  | cons v rest ih =>
    intro st
    rw [List.foldl_cons]
    cases v with
    | error u => rw [ih]; simp [metaStepV]; omega
    | ok row => rw [ih]; simp [metaStepV]; omega

/-- The sheet loop counters of the metadata extraction add up to the
number of attempted records. -/
theorem meta_count_s :
    ∀ (sheets : List (Except Unit (List (Except Unit (List String))))) (st : MetaState),
      (sheets.foldl metaStepS st).totalPairs + (sheets.foldl metaStepS st).skipped
        = st.totalPairs + st.skipped + metaAttempts sheets := by
  intro sheets
  induction sheets with
  | nil => intro st; simp [metaAttempts]
  | cons sh rest ih =>
    intro st
    rw [List.foldl_cons]
    cases sh with
    | error u => rw [ih]; simp [metaStepS, metaAttempts]; omega
    | ok vs => rw [ih]; simp [metaStepS, metaAttempts, meta_count_v vs st]; omega

/-- One fast-extraction step commutes with shifting `skipped`. -/
theorem rapidoStep_addSkip (modelName runStamp : String) (n : Nat)
    (st : RapidoState) (e : Except Unit RapidoElem) :
    rapidoStep modelName runStamp (addSkipRapido n st) e
      = addSkipRapido n (rapidoStep modelName runStamp st e) := by
  cases e with
  | error u =>
    simp only [rapidoStep, addSkipRapido]
    congr 1
    omega
  | ok d =>
    by_cases hf : rapidoSkips d.cat = true
    · simp [rapidoStep, hf, addSkipRapido]
    · simp [rapidoStep, hf, addSkipRapido]

/-- The fast extraction's whole loop commutes with shifting `skipped`. -/
theorem rapido_foldl_addSkip (modelName runStamp : String) :
    ∀ (es : List (Except Unit RapidoElem)) (n : Nat) (st : RapidoState),
      es.foldl (rapidoStep modelName runStamp) (addSkipRapido n st)
        = addSkipRapido n (es.foldl (rapidoStep modelName runStamp) st) := by
  intro es
  induction es with
  | nil => intro n st; rfl
  | cons e rest ih =>
    intro n st
    rw [List.foldl_cons, List.foldl_cons, rapidoStep_addSkip, ih]

/-- The fast extraction's `skipped` counter counts exactly the records
whose host reads failed. -/
theorem rapido_skipped_count (modelName runStamp : String) :
    ∀ (es : List (Except Unit RapidoElem)) (st : RapidoState),
      (es.foldl (rapidoStep modelName runStamp) st).skipped
        = st.skipped + countErrors es := by
  intro es
  induction es with
  | nil => intro st; simp [countErrors]
  | cons e rest ih =>
    intro st
    rw [List.foldl_cons]
    cases e with
    | error u =>
      rw [ih]
      simp [rapidoStep, countErrors]
      omega
    | ok d =>
      rw [ih]
      have hs : (rapidoStep modelName runStamp st (Except.ok d)).skipped = st.skipped := by
        by_cases hf : rapidoSkips d.cat = true
        · simp [rapidoStep, hf]
        · simp [rapidoStep, hf]
      rw [hs]
      simp [countErrors]

/-- C8: per-record failures are absorbed inside the loops — in the
complete extraction every collected element bumps exactly one of
`ok`/`skipped` so their sum is the element count, a failing record
changes nothing but `skipped` (the rows and `ok` of the rest of the run
are untouched), in the fast extraction a failing record likewise only
bumps `skipped` — which counts exactly the failed records — and in the
metadata extraction `total_pairs + skipped` accounts for every attempted
sheet/viewport record. -/
theorem per_record_error_accounting :
    (∀ (modelName runStamp : String) (es : List (Except Unit ElemData)),
      (completoRun modelName runStamp es).ok + (completoRun modelName runStamp es).skipped
        = es.length) ∧
    (∀ (modelName runStamp : String) (xs ys : List (Except Unit ElemData)),
      completoRun modelName runStamp (xs ++ Except.error () :: ys)
        = addSkip 1 (completoRun modelName runStamp (xs ++ ys))) ∧
    (∀ (modelName runStamp : String) (xs ys : List (Except Unit RapidoElem)),
      rapidoRun modelName runStamp (xs ++ Except.error () :: ys)
        = addSkipRapido 1 (rapidoRun modelName runStamp (xs ++ ys))) ∧
    (∀ (modelName runStamp : String) (es : List (Except Unit RapidoElem)),
      (rapidoRun modelName runStamp es).skipped = countErrors es) ∧
    (∀ sheets : List (Except Unit (List (Except Unit (List String)))),
      (metadadosRun sheets).totalPairs + (metadadosRun sheets).skipped
        = metaAttempts sheets) := by
  refine ⟨?_, ?_, ?_, ?_, ?_⟩
  · intro modelName runStamp es
    rw [completoRun, completo_count modelName runStamp es completoInit]
    simp [completoInit]
  · intro modelName runStamp xs ys
    rw [completoRun, completoRun, List.foldl_append, List.foldl_append, List.foldl_cons]
    have hstep : completoStep modelName runStamp (xs.foldl (completoStep modelName runStamp) completoInit) (Except.error ())
        = addSkip 1 (xs.foldl (completoStep modelName runStamp) completoInit) := rfl
    rw [hstep, completo_foldl_addSkip]
  · intro modelName runStamp xs ys
    rw [rapidoRun, rapidoRun, List.foldl_append, List.foldl_append, List.foldl_cons]
    have hstep : rapidoStep modelName runStamp (xs.foldl (rapidoStep modelName runStamp) rapidoInit) (Except.error ())
        = addSkipRapido 1 (xs.foldl (rapidoStep modelName runStamp) rapidoInit) := rfl
    rw [hstep, rapido_foldl_addSkip]
  · intro modelName runStamp es
    rw [rapidoRun, rapido_skipped_count modelName runStamp es rapidoInit]
    simp [rapidoInit]
  · intro sheets
    rw [metadadosRun, meta_count_s sheets]
    simp

/-- The discipline-sum fold, started from any accumulator. -/
theorem sumWhere_from (needle : String) :
    ∀ (items : List (String × Nat)) (a : Nat),
      items.foldl (fun acc kv => if hasSub needle.data kv.1.data then acc + kv.2 else acc) a
        = a + sumWhere needle items := by
  intro items
  induction items with
  | nil => intro a; simp [sumWhere]
  | cons kv rest ih =>
    intro a
    rw [List.foldl_cons, ih]
    have h0 : sumWhere needle (kv :: rest)
        = (if hasSub needle.data kv.1.data then (0 : Nat) + kv.2 else 0) + sumWhere needle rest := by
      rw [sumWhere, List.foldl_cons, ih]
    rw [h0]
    by_cases h : hasSub needle.data kv.1.data = true
    · simp [h]; omega
    · simp [h]

/-- The discipline sum over a cons cell. -/
theorem sumWhere_cons (needle : String) (kv : String × Nat) (rest : List (String × Nat)) :
    sumWhere needle (kv :: rest)
      = (if hasSub needle.data kv.1.data then kv.2 else 0) + sumWhere needle rest := by
  rw [sumWhere, List.foldl_cons, sumWhere_from]
  by_cases h : hasSub needle.data kv.1.data = true
  · simp [h]
  · simp [h]

/-- Bumping one label in the Counter bumps the discipline sum by one
exactly when the label contains the discipline name. -/
theorem sumWhere_counterAdd (needle : String) :
    ∀ (c : List (String × Nat)) (k : String),
      sumWhere needle (counterAdd c k)
        = sumWhere needle c + (if hasSub needle.data k.data then 1 else 0) := by
  intro c
  induction c with
  | nil =>
    intro k
    rw [counterAdd, sumWhere_cons]
    by_cases h : hasSub needle.data k.data = true
    · simp [h, sumWhere]
    · simp [h, sumWhere]
  | cons kv rest ih =>
    intro k
    rw [counterAdd]
    by_cases he : kv.1 = k
    · rw [if_pos he, sumWhere_cons, sumWhere_cons]
      subst he
      by_cases h : hasSub needle.data kv.1.data = true
      · simp only [h, if_true]
        omega
      · simp only [h, if_false]
        simp [h]
    · rw [if_neg he, sumWhere_cons, sumWhere_cons, ih]
      omega

/-- Folding the Counter over classified sheet texts makes each
discipline sum count the sheets whose label contains the discipline. -/
theorem sumWhere_sheetClasses (needle : String) :
    ∀ (texts : List String) (c : List (String × Nat)),
      sumWhere needle
        (texts.foldl (fun c t => counterAdd c (classify_sheet SHEET_RULES t)) c)
        = sumWhere needle c + countClassified needle texts := by
  intro texts
  induction texts with
  | nil => intro c; simp [countClassified]
  | cons t ts ih =>
    intro c
    rw [List.foldl_cons, ih, sumWhere_counterAdd]
    have hc : countClassified needle (t :: ts)
        = (if hasSub needle.data (classify_sheet SHEET_RULES t).data then 1 else 0)
          + countClassified needle ts := by
      rw [countClassified, countClassified, List.filter_cons]
      by_cases h : hasSub needle.data (classify_sheet SHEET_RULES t).data = true
      · simp only [h, if_true, List.length_cons]
        omega
      · simp [h]
    rw [hc]
    omega

/-- C10: each per-discipline sheet total of `ValidarLayout` equals the
number of sheets whose classification label contains that discipline's
name; a sheet with a combined label (the concrete `"EL-01 RACK"` sheet
is classified `"ELETRICA+INFRA"`) counts toward each matching
discipline, so the three totals can add up to more than the number of
sheets. -/
theorem discipline_sheet_totals :
    (∀ texts : List String,
      s_ele (sheetClasses texts) = countClassified "ELETRICA" texts ∧
      s_inf (sheetClasses texts) = countClassified "INFRA" texts ∧
      s_seg (sheetClasses texts) = countClassified "SEGURANCA" texts) ∧
    classify_sheet SHEET_RULES "EL-01 RACK" = "ELETRICA+INFRA" ∧
    s_ele (sheetClasses ["EL-01 RACK"]) + s_inf (sheetClasses ["EL-01 RACK"])
      + s_seg (sheetClasses ["EL-01 RACK"]) = 2 ∧
    (["EL-01 RACK"] : List String).length = 1 := by
  refine ⟨?_, by decide, by decide, by decide⟩
  intro texts
  refine ⟨?_, ?_, ?_⟩
  · rw [s_ele, sheetClasses, sumWhere_sheetClasses]
    simp [sumWhere]
  · rw [s_inf, sheetClasses, sumWhere_sheetClasses]
    simp [sumWhere]
  · rw [s_seg, sheetClasses, sumWhere_sheetClasses]
    simp [sumWhere]
